import Mathlib

/-!
Verification of the physics/control loop of the fps-shooter repository
(src/src/main.ts), shallowly embedded over exact rational arithmetic.

Quantities whose source computation is irrational (the ground plane's
Euler-angle quaternion, trigonometric yaw rotation, square-root vector
normalization, the fractional-power damping multiplier) are abstracted as
parameters; everything else is translated directly from the source.
-/

/-- A 3-component vector, mirroring `CANNON.Vec3` / `THREE.Vector3`. -/
structure Vec3 where
  x : ℚ
  y : ℚ
  z : ℚ
  deriving DecidableEq

instance : Add Vec3 where
  add a b := ⟨a.x + b.x, a.y + b.y, a.z + b.z⟩

instance : Sub Vec3 where
  sub a b := ⟨a.x - b.x, a.y - b.y, a.z - b.z⟩

instance : SMul ℚ Vec3 where
  smul a v := ⟨a * v.x, a * v.y, a * v.z⟩

/-- Squared Euclidean norm of a vector. -/
def Vec3.normSq (v : Vec3) : ℚ :=
  v.x * v.x + v.y * v.y + v.z * v.z

/-- A quaternion, mirroring `CANNON.Quaternion` (x, y, z, w). -/
structure Quat where
  qx : ℚ
  qy : ℚ
  qz : ℚ
  qw : ℚ
  deriving DecidableEq

/-- The identity quaternion, the default orientation of a new body. -/
def Quat.identity : Quat := ⟨0, 0, 0, 1⟩

/-- Rotation of a vector by a quaternion, the `Quaternion.vmult` formula
used by cannon-es (in particular by `PointToPointConstraint` to turn local
pivots into world anchors). -/
def Quat.vmult (q : Quat) (v : Vec3) : Vec3 :=
  let ix := q.qw * v.x + q.qy * v.z - q.qz * v.y
  let iy := q.qw * v.y + q.qz * v.x - q.qx * v.z
  let iz := q.qw * v.z + q.qx * v.y - q.qy * v.x
  let iw := -q.qx * v.x - q.qy * v.y - q.qz * v.z
  ⟨ix * q.qw + iw * (-q.qx) + iy * (-q.qz) - iz * (-q.qy),
   iy * q.qw + iw * (-q.qy) + iz * (-q.qx) - ix * (-q.qz),
   iz * q.qw + iw * (-q.qz) + ix * (-q.qy) - iy * (-q.qx)⟩

/-- One explicit Euler step of the quaternion derivative, the
`Quaternion.integrate` formula of cannon-es (before renormalization). -/
def Quat.integrate (q : Quat) (om : Vec3) (dt : ℚ) : Quat :=
  let h := dt / 2
  ⟨q.qx + h * (om.x * q.qw + om.y * q.qz - om.z * q.qy),
   q.qy + h * (om.y * q.qw + om.z * q.qx - om.x * q.qz),
   q.qz + h * (om.z * q.qw + om.x * q.qy - om.y * q.qx),
   q.qw + h * (-om.x * q.qx - om.y * q.qy - om.z * q.qz)⟩

/-- Collision shape variants used by main.ts: spheres, boxes and the plane. -/
inductive Shape where
  | sphere (radius : ℚ)
  | box (halfExtents : Vec3)
  | plane
  deriving DecidableEq

/-- A rigid body: the fields of `CANNON.Body` the loop reads or writes. -/
structure Body where
  mass : ℚ
  position : Vec3
  quaternion : Quat
  velocity : Vec3
  angularVelocity : Vec3
  linearDamping : ℚ
  angularDamping : ℚ
  shapes : List Shape
  deriving DecidableEq

/-- `new CANNON.Body({ mass })` with cannon-es defaults: origin position,
identity orientation, zero velocities, damping 0.01, no shapes yet. -/
def newBody (mass : ℚ) : Body :=
  { mass := mass
    position := ⟨0, 0, 0⟩
    quaternion := Quat.identity
    velocity := ⟨0, 0, 0⟩
    angularVelocity := ⟨0, 0, 0⟩
    linearDamping := 1/100
    angularDamping := 1/100
    shapes := [] }

/-- A point-to-point constraint between two bodies, each referenced by its
stable index in the world's body list, with local pivot offsets. -/
structure P2PConstraint where
  bodyA : ℕ
  pivotA : Vec3
  bodyB : ℕ
  pivotB : Vec3
  deriving DecidableEq

/-- The physics world: gravity, the ordered body list (insertion order is
the stable index), the constraint list, and the fixed-step accumulator. -/
structure World where
  gravity : Vec3
  bodies : List Body
  constraints : List P2PConstraint
  accumulator : ℚ
  deriving DecidableEq

/-- `timeStep = 1 / 60` (main.ts line 15). -/
def timeStep : ℚ := 1/60

/-- The avatar collision sphere radius (main.ts line 172). -/
def sphereRadius : ℚ := 13/10

/-- The avatar body: mass 5, sphere shape of radius 1.3, start at (0,5,0),
linear damping 0.9 (main.ts lines 172-178). -/
def sphereBody : Body :=
  { newBody 5 with
    shapes := [Shape.sphere sphereRadius]
    position := ⟨0, 5, 0⟩
    linearDamping := 9/10 }

/-- The static ground plane, mass 0 (main.ts lines 181-185).  Its
orientation comes from `setFromEuler(-π/2, 0, 0)`, whose components are
irrational, so the quaternion is taken as a parameter. -/
def groundBody (gq : Quat) : Body :=
  { newBody 0 with
    shapes := [Shape.plane]
    quaternion := gq }

/-- One of the 100 random boxes (main.ts lines 201-230): mass 5, unit half
extents, position from five consecutive draws of the random source. -/
def boxBody (rand : ℕ → ℚ) (i : ℕ) : Body :=
  let clusterX := (rand (5*i) - 1/2) * 100
  let clusterZ := (rand (5*i+1) - 1/2) * 100
  let x := clusterX + (rand (5*i+2) - 1/2) * 2
  let y := rand (5*i+3) * 10 + 1
  let z := clusterZ + (rand (5*i+4) - 1/2) * 2
  { newBody 5 with
    shapes := [Shape.box ⟨1, 1, 1⟩]
    position := ⟨x, y, z⟩ }

/-- `size = 0.5` of the linked-box chain (main.ts line 233). -/
def chainSize : ℚ := 1/2

/-- `mass = 0.3` of the chain links (main.ts line 234). -/
def chainMass : ℚ := 3/10

/-- `space = 0.1 * size` of the chain (main.ts line 235). -/
def chainSpace : ℚ := chainSize / 10

/-- `N = 10` chain bodies (main.ts line 236). -/
def chainN : ℕ := 10

/-- Chain body i (main.ts lines 247-261): mass 0 for i = 0 else 0.3, thin
box shape, position (5, (N-i)·(2·size+2·space)+2·size+space, 0), both
damping coefficients 0.01. -/
def chainBody (i : ℕ) : Body :=
  { newBody (if i = 0 then 0 else chainMass) with
    shapes := [Shape.box ⟨chainSize, chainSize, chainSize * (1/10)⟩]
    position := ⟨5, ((chainN : ℚ) - (i : ℚ)) * (chainSize * 2 + 2 * chainSpace)
                      + chainSize * 2 + chainSpace, 0⟩
    linearDamping := 1/100
    angularDamping := 1/100 }

/-- The ten chain bodies in creation order. -/
def chainBodies : List Body := (List.range chainN).map chainBody

/-- The two point-to-point constraints linking chain body i (i > 0) to
chain body i-1, with mirrored local pivots (main.ts lines 271-287),
indexed chain-locally. -/
def chainLinkConstraints (i : ℕ) : List P2PConstraint :=
  [⟨i, ⟨-chainSize, chainSize + chainSpace, 0⟩,
    i - 1, ⟨-chainSize, -chainSize - chainSpace, 0⟩⟩,
   ⟨i, ⟨chainSize, chainSize + chainSpace, 0⟩,
    i - 1, ⟨chainSize, -chainSize - chainSpace, 0⟩⟩]

/-- All chain constraints, in creation order (only links with i > 0). -/
def chainConstraints : List P2PConstraint :=
  ((List.range chainN).filter (fun i => 0 < i)).flatMap chainLinkConstraints

/-- World index of chain body 0: after the avatar (0), the ground (1) and
the 100 random boxes (2..101). -/
def chainBase : ℕ := 102

/-- Shift a chain-local constraint to world body indices. -/
def shiftConstraint (c : P2PConstraint) : P2PConstraint :=
  { c with bodyA := chainBase + c.bodyA, bodyB := chainBase + c.bodyB }

/-- The world built by `initCannon` (main.ts lines 146-355): gravity
(0,-20,0); bodies in insertion order: avatar, ground, 100 random boxes,
10 chain bodies; the chain links are the only constraints ever created. -/
def initCannonWorld (gq : Quat) (rand : ℕ → ℚ) : World :=
  { gravity := ⟨0, -20, 0⟩
    bodies := [sphereBody, groundBody gq] ++ (List.range 100).map (boxBody rand)
                ++ chainBodies
    constraints := chainConstraints.map shiftConstraint
    accumulator := 0 }

/-- A render proxy: the pose fields of a `THREE.Mesh` that SceneSync
writes. -/
structure Mesh where
  position : Vec3
  quaternion : Quat
  deriving DecidableEq

/-- Controller state (PointerLockControlsCannon): the enabled flag, view
angles and movement intent. -/
structure Controller where
  enabled : Bool
  yaw : ℚ
  pitch : ℚ
  intentX : ℚ
  intentZ : ℚ
  deriving DecidableEq

/-- The module-level mutable state of main.ts that the frame loop and the
click handler touch: the world, the controller, `lastCallTime`, and the
parallel body-index/mesh arrays `balls`/`ballMeshes`, `boxes`/`boxMeshes`
(bodies are stored by world index to model JS reference aliasing). -/
structure MainState where
  world : World
  ctrl : Controller
  lastCallTime : ℚ
  balls : List ℕ
  ballMeshes : List Mesh
  boxes : List ℕ
  boxMeshes : List Mesh
  deriving DecidableEq

/-- Abstract environment for the parts of the loop whose exact values are
computed by external code or are irrational: the iterative solver's
velocity corrections (`impulse` is the linear impulse on body i, scaled by
inverse mass; `angDelta` the angular velocity correction), the damping
multiplier `pow(1 - damping, dt)`, quaternion renormalization, yaw
rotation of the movement intent, and the controller's speed constant. -/
structure Env where
  impulse : List Body → ℕ → Vec3
  angDelta : List Body → ℕ → Vec3
  dampFactor : ℚ → ℚ
  normalizeQ : Quat → Quat
  yawRotate : ℚ → ℚ × ℚ → ℚ × ℚ
  moveSpeed : ℚ

/-- Map a function over a list together with the running index. -/
def mapIdxFrom (f : ℕ → α → α) : ℕ → List α → List α
  | _, [] => []
  | n, a :: as => f n a :: mapIdxFrom f (n+1) as

/-- Modelled from the spec: one fixed-dt substep of `PhysicsWorld.step`
(the cannon-es `World.internalStep`, which is library code not under
src/).  A body of mass 0 is static and is skipped entirely: gravity is
not applied, the solver never modifies it, integration early-returns.  A
dynamic body receives gravity, damping, the solver's velocity
corrections scaled by inverse mass, then explicit-Euler position and
orientation integration with renormalization. -/
def integrateBody (env : Env) (bodies : List Body) (g : Vec3) (dt : ℚ)
    (i : ℕ) (b : Body) : Body :=
  if b.mass = 0 then b
  else
    let v := env.dampFactor b.linearDamping • (b.velocity + dt • g)
              + b.mass⁻¹ • env.impulse bodies i
    let om := env.dampFactor b.angularDamping • b.angularVelocity
              + env.angDelta bodies i
    { b with
      velocity := v
      angularVelocity := om
      position := b.position + dt • v
      quaternion := env.normalizeQ (b.quaternion.integrate om dt) }

/-- Modelled from the spec: one substep applied to every body of the
world. -/
def substep (env : Env) (dt : ℚ) (w : World) : World :=
  { w with bodies := mapIdxFrom (integrateBody env w.bodies w.gravity dt) 0 w.bodies }

/-- Modelled from the spec: `PhysicsWorld.step(fixedDt, elapsedReal)`
(spec §4.1), the fixed-step accumulator of `World.step` in cannon-es:
accumulate the elapsed real time, run one substep per whole `fixedDt`
contained in the accumulator, and leave the remainder for the next
call. -/
def worldStep (env : Env) (fixedDt elapsed : ℚ) (w : World) : World :=
  let acc := w.accumulator + elapsed
  let k := ⌊acc / fixedDt⌋₊
  { (substep env fixedDt)^[k] w with accumulator := acc - k * fixedDt }

/-- A sequence of `step` calls with the given elapsed-time arguments. -/
def runSteps (env : Env) (fixedDt : ℚ) (es : List ℚ) (w : World) : World :=
  es.foldl (fun w e => worldStep env fixedDt e w) w

/-- Modelled from the spec: `PointerLockControlsCannon.update(dt)`
(src/pointer-lock.ts is not under src/).  While Unlocked it is a no-op;
while Locked it writes the yaw-rotated, speed-scaled movement intent into
the avatar body's horizontal velocity, leaving the vertical component
untouched. -/
def controllerWorldUpdate (env : Env) (c : Controller) (w : World) : World :=
  if c.enabled then
    let d := env.yawRotate c.yaw (c.intentX, c.intentZ)
    { w with bodies := mapIdxFrom (fun i b =>
        if i = 0 then
          { b with velocity := ⟨env.moveSpeed * d.1, b.velocity.y, env.moveSpeed * d.2⟩ }
        else b) 0 w.bodies }
  else w

/-- The per-index mesh update of the sync loops in `animate` (main.ts
lines 389-398): copy body `idxs[i]`'s position and orientation into mesh
i. -/
def syncPair (bodies : List Body) (idxs : List ℕ) (meshes : List Mesh) : List Mesh :=
  mapIdxFrom (fun i m =>
    match idxs[i]? with
    | some j =>
      match bodies[j]? with
      | some b => ⟨b.position, b.quaternion⟩
      | none => m
    | none => m) 0 meshes

/-- One frame callback of `animate` (main.ts lines 378-403): update
`lastCallTime` unconditionally from the current time; if the controller
is enabled, step the world by the elapsed interval and sync every
ball/box mesh from its body; finally `controls.update(dt)`. -/
def animateFrame (env : Env) (now : ℚ) (s : MainState) : MainState :=
  let dt := now - s.lastCallTime
  let s1 : MainState := { s with lastCallTime := now }
  let s2 : MainState :=
    if s1.ctrl.enabled then
      let w := worldStep env timeStep dt s1.world
      { s1 with
        world := w
        ballMeshes := syncPair w.bodies s1.balls s1.ballMeshes
        boxMeshes := syncPair w.bodies s1.boxes s1.boxMeshes }
    else s1
  { s2 with world := controllerWorldUpdate env s2.ctrl s2.world }

/-- A sequence of frame callbacks at the given clock times. -/
def runFrames (env : Env) (ts : List ℚ) (s : MainState) : MainState :=
  ts.foldl (fun s t => animateFrame env t s) s

/-- The `lock` event handler (main.ts lines 366-369): set enabled. -/
def onLock (s : MainState) : MainState :=
  { s with ctrl := { s.ctrl with enabled := true } }

/-- The `unlock` event handler (main.ts lines 372-375): clear enabled. -/
def onUnlock (s : MainState) : MainState :=
  { s with ctrl := { s.ctrl with enabled := false } }

/-- `shootVelocity = 15` (main.ts line 293). -/
def shootVelocity : ℚ := 15

/-- The projectile sphere radius 0.2 (main.ts line 294). -/
def ballRadius : ℚ := 1/5

/-- The click handler (main.ts lines 308-354): a silent no-op unless the
controller is enabled; otherwise create a mass-1 ball whose velocity is
`shootDirection * shootVelocity` and whose position is the avatar position
plus `shootDirection * (sphereRadius * 1.02 + ballRadius)`, append the
body to the world and the ball/mesh pair to the parallel arrays.  The
shoot direction itself is computed by `getShootDirection` from the camera
unprojection (external three.js math, normalized to unit length), so it
enters here as a parameter. -/
def clickHandler (dir : Vec3) (s : MainState) : MainState :=
  if s.ctrl.enabled = false then s
  else
    let sphereB := s.world.bodies.getD 0 (newBody 0)
    let offset := sphereRadius * (102/100) + ballRadius
    let ballBody : Body :=
      { newBody 1 with
        shapes := [Shape.sphere ballRadius]
        velocity := shootVelocity • dir
        position := sphereB.position + offset • dir }
    { s with
      world := { s.world with bodies := s.world.bodies ++ [ballBody] }
      balls := s.balls ++ [s.world.bodies.length]
      ballMeshes := s.ballMeshes ++ [⟨ballBody.position, Quat.identity⟩] }

/-- The initial module state after `initThree`/`initCannon`: empty ball
arrays; the `boxes` array holds the 100 random boxes then the 10 chain
bodies (both are pushed into the same arrays, main.ts lines 228-229 and
268-269); random box meshes start at their body's position, chain meshes
at the origin (their position is never copied at setup). -/
def initialState (gq : Quat) (rand : ℕ → ℚ) : MainState :=
  { world := initCannonWorld gq rand
    ctrl := ⟨false, 0, 0, 0, 0⟩
    lastCallTime := 0
    balls := []
    ballMeshes := []
    boxes := (List.range 100).map (fun i => 2 + i)
               ++ (List.range chainN).map (fun i => chainBase + i)
    boxMeshes := (List.range 100).map (fun i => ⟨(boxBody rand i).position, Quat.identity⟩)
                   ++ (List.range chainN).map (fun _ => ⟨⟨0, 0, 0⟩, Quat.identity⟩) }

/-- The parallel-array well-formedness the spec requires of SceneSync
callers: mesh arrays have the same length as their body-index arrays, and
every stored index refers to an existing body. -/
def meshInv (s : MainState) : Bool :=
  (s.balls.length == s.ballMeshes.length)
    && (s.boxes.length == s.boxMeshes.length)
    && s.balls.all (fun j => j < s.world.bodies.length)
    && s.boxes.all (fun j => j < s.world.bodies.length)

/-- Mesh i of each parallel array carries exactly the pose of the body it
mirrors. -/
def Synced (s : MainState) : Prop :=
  (∀ (i j : ℕ) (m : Mesh) (b : Body), s.balls[i]? = some j → s.ballMeshes[i]? = some m →
     s.world.bodies[j]? = some b → m.position = b.position ∧ m.quaternion = b.quaternion) ∧
  (∀ (i j : ℕ) (m : Mesh) (b : Body), s.boxes[i]? = some j → s.boxMeshes[i]? = some m →
     s.world.bodies[j]? = some b → m.position = b.position ∧ m.quaternion = b.quaternion)

/-- The world-space anchor point of a constraint pivot on a body, as
cannon-es computes it: body position plus the quaternion-rotated local
pivot. -/
def anchorWorld (b : Body) (pivot : Vec3) : Vec3 :=
  b.position + b.quaternion.vmult pivot

/-- A concrete environment for witnesses: zero solver corrections, unit
damping multiplier, identity renormalization and rotation. -/
def env0 : Env :=
  { impulse := fun _ _ => ⟨0, 0, 0⟩
    angDelta := fun _ _ => ⟨0, 0, 0⟩
    dampFactor := fun _ => 1
    normalizeQ := id
    yawRotate := fun _ p => p
    moveSpeed := 0 }

/-- A small concrete state for witnesses: a dynamic body and a static
body, one box mesh pair. -/
def testState : MainState :=
  { world := { gravity := ⟨0, -20, 0⟩
               bodies := [{ newBody 5 with position := ⟨0, 5, 0⟩ }, newBody 0]
               constraints := []
               accumulator := 0 }
    ctrl := ⟨false, 0, 0, 0, 0⟩
    lastCallTime := 0
    balls := []
    ballMeshes := []
    boxes := [1]
    boxMeshes := [⟨⟨0, 0, 0⟩, Quat.identity⟩] }

/-- `testState` with the controller enabled. -/
def testStateOn : MainState :=
  { testState with ctrl := { testState.ctrl with enabled := true } }

theorem length_mapIdxFrom (f : ℕ → α → α) (n : ℕ) (l : List α) :
    (mapIdxFrom f n l).length = l.length := by
  induction l generalizing n with
  | nil => rfl
  | cons a as ih => simp [mapIdxFrom, ih]

theorem getElem?_mapIdxFrom (f : ℕ → α → α) (n : ℕ) (l : List α) (i : ℕ) :
    (mapIdxFrom f n l)[i]? = (l[i]?).map (f (n + i)) := by
  induction l generalizing n i with
  | nil => simp [mapIdxFrom]
  | cons a as ih =>
    cases i with
    | zero => simp [mapIdxFrom]
    | succ i =>
      simp only [mapIdxFrom, List.getElem?_cons_succ, ih (n+1) i]
      rw [show n + 1 + i = n + (i + 1) from by omega]

theorem animateFrame_disabled (env : Env) (t : ℚ) (s : MainState)
    (h : s.ctrl.enabled = false) :
    animateFrame env t s = { s with lastCallTime := t } := by
  simp [animateFrame, controllerWorldUpdate, h]

theorem runFrames_disabled (env : Env) (ts : List ℚ) (s : MainState)
    (h : s.ctrl.enabled = false) :
    runFrames env ts s = { s with lastCallTime := ts.getLastD s.lastCallTime } := by
  induction ts generalizing s with
  | nil => simp [runFrames]
  | cons t ts ih =>
    have h1 : runFrames env (t :: ts) s = runFrames env ts (animateFrame env t s) := rfl
    rw [h1, animateFrame_disabled env t s h,
        ih { s with lastCallTime := t } h, List.getLastD_cons]

/-- C1: while the controller's enabled flag is false, a frame cycle never
invokes the physics step, and across any number of frame callbacks every
body's position and orientation (indeed the whole world) is unchanged,
with the flag remaining false. -/
theorem frames_disabled_freeze (env : Env) (ts : List ℚ) (s : MainState)
    (h : s.ctrl.enabled = false) :
    (runFrames env ts s).world.bodies = s.world.bodies ∧
    (runFrames env ts s).world = s.world ∧
    (runFrames env ts s).ctrl.enabled = false := by
  rw [runFrames_disabled env ts s h]
  exact ⟨rfl, rfl, h⟩

theorem frames_disabled_freeze_witness :
    (runFrames env0 [1, 2] testState).world.bodies = testState.world.bodies ∧
    (runFrames env0 [1, 2] testState).world = testState.world ∧
    (runFrames env0 [1, 2] testState).ctrl.enabled = false :=
  frames_disabled_freeze env0 [1, 2] testState rfl

/-- C5: a click received while the controller is disabled is a silent
no-op: the whole module state (world bodies, balls, ballMeshes, all of
it) is returned unchanged. -/
theorem click_disabled_noop (dir : Vec3) (s : MainState)
    (h : s.ctrl.enabled = false) : clickHandler dir s = s := by
  simp [clickHandler, h]

theorem click_disabled_noop_witness :
    clickHandler ⟨0, 0, 1⟩ testState = testState :=
  click_disabled_noop ⟨0, 0, 1⟩ testState rfl

/-- C9: the frame loop updates `lastCallTime` on every frame regardless of
the enabled flag, so after any run of disabled frames the first physics
step after re-enabling receives only the interval since the most recent
frame, applied to the untouched world — no catch-up of the paused
period. -/
theorem relock_no_catchup (env : Env) (ts : List ℚ) (t : ℚ) (s : MainState)
    (h : s.ctrl.enabled = false) :
    (∀ (u : ℚ) (s' : MainState), (animateFrame env u s').lastCallTime = u) ∧
    (runFrames env ts s).lastCallTime = ts.getLastD s.lastCallTime ∧
    (animateFrame env t (onLock (runFrames env ts s))).world =
      controllerWorldUpdate env { s.ctrl with enabled := true }
        (worldStep env timeStep (t - ts.getLastD s.lastCallTime) s.world) := by
  refine ⟨?_, ?_, ?_⟩
  · intro u s'
    by_cases hc : s'.ctrl.enabled <;> simp [animateFrame, hc]
  · rw [runFrames_disabled env ts s h]
  · rw [runFrames_disabled env ts s h]
    simp [animateFrame, onLock]

theorem relock_no_catchup_witness :
    (animateFrame env0 3 (onLock (runFrames env0 [1, 2] testState))).world =
      controllerWorldUpdate env0 { testState.ctrl with enabled := true }
        (worldStep env0 timeStep (3 - 2) testState.world) :=
  (relock_no_catchup env0 [1, 2] 3 testState rfl).2.2

theorem substep_withAcc (env : Env) (dt r : ℚ) (w : World) :
    substep env dt { w with accumulator := r } =
      { substep env dt w with accumulator := r } := rfl

theorem iterate_substep_withAcc (env : Env) (dt r : ℚ) (k : ℕ) (w : World) :
    (substep env dt)^[k] { w with accumulator := r } =
      { (substep env dt)^[k] w with accumulator := r } := by
  induction k generalizing w with
  | zero => rfl
  | succ k ih =>
    rw [Function.iterate_succ_apply, Function.iterate_succ_apply,
        substep_withAcc, ih]

theorem worldStep_as (env : Env) (dt e : ℚ) (w : World) :
    worldStep env dt e w =
      { (substep env dt)^[⌊(w.accumulator + e) / dt⌋₊] w with
        accumulator := (w.accumulator + e) - ⌊(w.accumulator + e) / dt⌋₊ * dt } := rfl

/-- C2: with fixedDt = 1/60 the fixed-step accumulator makes stepping a
function only of total elapsed time: stepping by a and then by b yields
exactly the same world (bodies and accumulator) as a single step by
a + b, for any solver environment. -/
theorem step_chunk (env : Env) (a b : ℚ) (w : World)
    (ha : 0 ≤ a) (hb : 0 ≤ b) :
    worldStep env timeStep b (worldStep env timeStep a w) =
      worldStep env timeStep (a + b) w := by
  have hdt : (0 : ℚ) < timeStep := by norm_num [timeStep]
  have hne : timeStep ≠ 0 := ne_of_gt hdt
  set k1 := ⌊(w.accumulator + a) / timeStep⌋₊ with hk1
  set K := ⌊(w.accumulator + (a + b)) / timeStep⌋₊ with hK
  have hle : k1 ≤ K := by
    rw [hk1, hK]
    exact Nat.floor_le_floor ((div_le_div_right hdt).mpr (by linarith))
  have harg : (w.accumulator + a - (k1 : ℚ) * timeStep + b) / timeStep
      = (w.accumulator + (a + b)) / timeStep - (k1 : ℚ) := by
    field_simp
    ring
  have hk2 : ⌊(w.accumulator + a - (k1 : ℚ) * timeStep + b) / timeStep⌋₊ = K - k1 := by
    rw [harg, hK, Nat.floor_sub_nat]
  rw [worldStep_as env timeStep a w, worldStep_as, worldStep_as]
  simp only [← hk1]
  rw [iterate_substep_withAcc]
  simp only [← hK]
  rw [hk2, ← Function.iterate_add_apply]
  have hsum : K - k1 + k1 = K := Nat.sub_add_cancel hle
  rw [hsum]
  congr 1
  have hcast : ((K - k1 : ℕ) : ℚ) = (K : ℚ) - (k1 : ℚ) := by
    push_cast [Nat.cast_sub hle]
    ring
  rw [hcast]
  ring

theorem step_chunk_witness :
    worldStep env0 timeStep (1/50) (worldStep env0 timeStep (1/40) testState.world) =
      worldStep env0 timeStep (1/40 + 1/50) testState.world :=
  step_chunk env0 (1/40) (1/50) testState.world (by norm_num) (by norm_num)

theorem Vec3.add_def (a b : Vec3) : a + b = ⟨a.x + b.x, a.y + b.y, a.z + b.z⟩ := rfl

theorem Vec3.sub_def (a b : Vec3) : a - b = ⟨a.x - b.x, a.y - b.y, a.z - b.z⟩ := rfl

theorem Vec3.smul_def (c : ℚ) (v : Vec3) : c • v = ⟨c * v.x, c * v.y, c * v.z⟩ := rfl

theorem Vec3.add_sub_cancel_left (p v : Vec3) : (p + v) - p = v := by
  cases p; cases v
  simp [Vec3.add_def, Vec3.sub_def]

theorem Vec3.normSq_smul (c : ℚ) (v : Vec3) : (c • v).normSq = c^2 * v.normSq := by
  simp [Vec3.smul_def, Vec3.normSq]
  ring

/-- C3: a click processed while enabled spawns a ball at
`avatarPosition + shootDirection * (sphereRadius * 1.02 + ballRadius)`;
for a unit shoot direction its squared distance from the avatar center is
exactly `(1.3 * 1.02 + 0.2)^2`, which is at least
`(sphereRadius + ballRadius)^2`, so the ball never starts inside the
avatar's collision sphere. -/
theorem click_spawn_position (d : Vec3) (s : MainState)
    (h : s.ctrl.enabled = true) (hd : d.normSq = 1) :
    ∃ ball : Body,
      (clickHandler d s).world.bodies.getLast? = some ball ∧
      ball.position = (s.world.bodies.getD 0 (newBody 0)).position
        + (sphereRadius * (102/100) + ballRadius) • d ∧
      (ball.position - (s.world.bodies.getD 0 (newBody 0)).position).normSq
        = (sphereRadius * (102/100) + ballRadius)^2 ∧
      (sphereRadius + ballRadius)^2
        ≤ (ball.position - (s.world.bodies.getD 0 (newBody 0)).position).normSq := by
  have hne : ¬ s.ctrl.enabled = false := by simp [h]
  refine ⟨{ newBody 1 with
            shapes := [Shape.sphere ballRadius]
            velocity := shootVelocity • d
            position := (s.world.bodies.getD 0 (newBody 0)).position
              + (sphereRadius * (102/100) + ballRadius) • d }, ?_, rfl, ?_, ?_⟩
  · simp [clickHandler, hne]
  · rw [Vec3.add_sub_cancel_left, Vec3.normSq_smul, hd, mul_one]
  · rw [Vec3.add_sub_cancel_left, Vec3.normSq_smul, hd, mul_one]
    norm_num [sphereRadius, ballRadius]

theorem click_spawn_position_witness :
    ∃ ball : Body,
      (clickHandler ⟨0, 0, 1⟩ testStateOn).world.bodies.getLast? = some ball ∧
      ball.position = (testStateOn.world.bodies.getD 0 (newBody 0)).position
        + (sphereRadius * (102/100) + ballRadius) • (⟨0, 0, 1⟩ : Vec3) ∧
      (ball.position - (testStateOn.world.bodies.getD 0 (newBody 0)).position).normSq
        = (sphereRadius * (102/100) + ballRadius)^2 ∧
      (sphereRadius + ballRadius)^2
        ≤ (ball.position - (testStateOn.world.bodies.getD 0 (newBody 0)).position).normSq :=
  click_spawn_position ⟨0, 0, 1⟩ testStateOn rfl (by norm_num [Vec3.normSq])

/-- C4: a click processed while enabled gives the spawned ball the
velocity `shootDirection * shootVelocity` with `shootVelocity = 15`; for
a unit direction the squared speed is exactly 15², and for the direction
(0,0,1) (avatar facing +Z) the velocity is (0,0,15).  The direction is
the one produced by `getShootDirection` from the camera view, not a
function of the mouse position. -/
theorem click_spawn_velocity (d : Vec3) (s : MainState)
    (h : s.ctrl.enabled = true) :
    ∃ ball : Body,
      (clickHandler d s).world.bodies.getLast? = some ball ∧
      ball.velocity = shootVelocity • d ∧
      (d.normSq = 1 → ball.velocity.normSq = shootVelocity^2) ∧
      (d = ⟨0, 0, 1⟩ → ball.velocity = ⟨0, 0, 15⟩) := by
  have hne : ¬ s.ctrl.enabled = false := by simp [h]
  refine ⟨{ newBody 1 with
            shapes := [Shape.sphere ballRadius]
            velocity := shootVelocity • d
            position := (s.world.bodies.getD 0 (newBody 0)).position
              + (sphereRadius * (102/100) + ballRadius) • d }, ?_, rfl, ?_, ?_⟩
  · simp [clickHandler, hne]
  · intro hd
    rw [Vec3.normSq_smul, hd, mul_one]
  · intro hd
    subst hd
    simp [Vec3.smul_def, shootVelocity]

theorem click_spawn_velocity_witness :
    ∃ ball : Body,
      (clickHandler ⟨0, 0, 1⟩ testStateOn).world.bodies.getLast? = some ball ∧
      ball.velocity = shootVelocity • (⟨0, 0, 1⟩ : Vec3) ∧
      ((⟨0, 0, 1⟩ : Vec3).normSq = 1 → ball.velocity.normSq = shootVelocity^2) ∧
      ((⟨0, 0, 1⟩ : Vec3) = ⟨0, 0, 1⟩ → ball.velocity = ⟨0, 0, 15⟩) :=
  click_spawn_velocity ⟨0, 0, 1⟩ testStateOn rfl

theorem chainBodies_getD (i : ℕ) (hi : i < 10) :
    chainBodies.getD i (newBody 1) = chainBody i := by
  simp [chainBodies, chainN, List.getD, List.getElem?_map, List.getElem?_range, hi]

theorem Quat.vmult_identity (v : Vec3) : Quat.identity.vmult v = v := by
  cases v
  simp [Quat.vmult, Quat.identity]

/-- C6: the chain is built top-down with exactly N = 10 bodies, body 0 of
mass 0 and every later body of mass 0.3 with linear and angular damping
0.01; each body i > 0 is linked to body i-1 by exactly two point-to-point
constraints with mirrored local pivots, and the world's constraint list
consists of exactly these chain constraints. -/
theorem chain_assembly (gq : Quat) (rand : ℕ → ℚ) :
    chainBodies.length = 10 ∧
    (chainBodies.getD 0 (newBody 1)).mass = 0 ∧
    (∀ i, i < 10 → 1 ≤ i →
      (chainBodies.getD i (newBody 1)).mass = 3/10 ∧
      (chainBodies.getD i (newBody 1)).linearDamping = 1/100 ∧
      (chainBodies.getD i (newBody 1)).angularDamping = 1/100) ∧
    chainConstraints.length = 18 ∧
    (∀ i, i < 10 → 1 ≤ i →
      chainConstraints.getD (2*(i-1)) ⟨0, ⟨0,0,0⟩, 0, ⟨0,0,0⟩⟩
        = ⟨i, ⟨-chainSize, chainSize + chainSpace, 0⟩,
           i - 1, ⟨-chainSize, -chainSize - chainSpace, 0⟩⟩ ∧
      chainConstraints.getD (2*(i-1)+1) ⟨0, ⟨0,0,0⟩, 0, ⟨0,0,0⟩⟩
        = ⟨i, ⟨chainSize, chainSize + chainSpace, 0⟩,
           i - 1, ⟨chainSize, -chainSize - chainSpace, 0⟩⟩) ∧
    (initCannonWorld gq rand).constraints = chainConstraints.map shiftConstraint := by
  refine ⟨rfl, rfl, ?_, rfl, ?_, rfl⟩
  · intro i hi h1
    rw [chainBodies_getD i hi]
    have hne0 : ¬ i = 0 := by omega
    refine ⟨?_, ?_, ?_⟩ <;> simp [chainBody, newBody, hne0, chainMass]
  · intro i hi h1
    interval_cases i <;> exact ⟨rfl, rfl⟩

theorem chain_assembly_witness :
    (chainBodies.getD 5 (newBody 1)).mass = 3/10 ∧
    (chainBodies.getD 5 (newBody 1)).linearDamping = 1/100 ∧
    (chainBodies.getD 5 (newBody 1)).angularDamping = 1/100 :=
  (chain_assembly Quat.identity (fun _ => 0)).2.2.1 5 (by omega) (by omega)

/-- C10: at setup every chain body i sits at
(5, (N-i)·(2·size+2·space)+2·size+space, 0), consecutive bodies are
separated vertically by exactly 2·size+2·space, and the two world-space
anchor points of every chain constraint coincide exactly (zero initial
residual). -/
theorem chain_anchor_alignment :
    (∀ i, i < 10 →
      (chainBodies.getD i (newBody 1)).position
        = ⟨5, ((chainN : ℚ) - (i : ℚ)) * (chainSize * 2 + 2 * chainSpace)
               + chainSize * 2 + chainSpace, 0⟩) ∧
    (∀ i, i < 9 →
      (chainBodies.getD i (newBody 1)).position.y
        - (chainBodies.getD (i+1) (newBody 1)).position.y
        = 2 * chainSize + 2 * chainSpace) ∧
    (∀ c ∈ chainConstraints,
      anchorWorld (chainBodies.getD c.bodyA (newBody 1)) c.pivotA
        = anchorWorld (chainBodies.getD c.bodyB (newBody 1)) c.pivotB) := by
  refine ⟨?_, ?_, ?_⟩
  · intro i hi
    rw [chainBodies_getD i hi]
    rfl
  · intro i hi
    rw [chainBodies_getD i (by omega), chainBodies_getD (i+1) (by omega)]
    simp only [chainBody]
    push_cast
    ring
  · intro c hc
    simp only [chainConstraints, List.mem_flatMap, List.mem_filter,
      List.mem_range, decide_eq_true_eq] at hc
    obtain ⟨i, ⟨hi10, hi0⟩, hc⟩ := hc
    have h1 : 1 ≤ i := hi0
    simp only [chainLinkConstraints, List.mem_cons, List.not_mem_nil, or_false] at hc
    have hiN : i < 10 := by simpa [chainN] using hi10
    rcases hc with rfl | rfl <;>
    · dsimp only
      rw [chainBodies_getD _ hiN, chainBodies_getD _ (by omega)]
      simp only [anchorWorld, chainBody, newBody, Quat.vmult_identity, Vec3.add_def,
        Vec3.mk.injEq]
      refine ⟨?_, ?_, ?_⟩ <;> push_cast [Nat.cast_sub h1] <;> ring

theorem chain_anchor_alignment_witness :
    (chainBodies.getD 3 (newBody 1)).position
      = ⟨5, ((chainN : ℚ) - (3 : ℚ)) * (chainSize * 2 + 2 * chainSpace)
             + chainSize * 2 + chainSpace, 0⟩ :=
  chain_anchor_alignment.1 3 (by omega)

theorem integrateBody_static (env : Env) (bodies : List Body) (g : Vec3)
    (dt : ℚ) (i : ℕ) (b : Body) (h : b.mass = 0) :
    integrateBody env bodies g dt i b = b := by
  simp [integrateBody, h]

theorem substep_static (env : Env) (dt : ℚ) (w : World) (i : ℕ) (b : Body)
    (hb : w.bodies[i]? = some b) (h : b.mass = 0) :
    (substep env dt w).bodies[i]? = some b := by
  show (mapIdxFrom (integrateBody env w.bodies w.gravity dt) 0 w.bodies)[i]? = some b
  rw [getElem?_mapIdxFrom, hb]
  simp [integrateBody, h]

theorem iterate_substep_static (env : Env) (dt : ℚ) (k : ℕ) (w : World)
    (i : ℕ) (b : Body) (hb : w.bodies[i]? = some b) (h : b.mass = 0) :
    ((substep env dt)^[k] w).bodies[i]? = some b := by
  induction k generalizing w with
  | zero => simpa using hb
  | succ k ih =>
    rw [Function.iterate_succ_apply]
    exact ih _ (substep_static env dt w i b hb h)

theorem worldStep_static (env : Env) (fixedDt e : ℚ) (w : World) (i : ℕ)
    (b : Body) (hb : w.bodies[i]? = some b) (h : b.mass = 0) :
    (worldStep env fixedDt e w).bodies[i]? = some b := by
  rw [worldStep_as]
  exact iterate_substep_static env fixedDt _ w i b hb h

/-- C7: a body of mass 0 (such as the ground plane or the chain anchor)
is returned unchanged — position, orientation and velocity included — by
any number of `step` calls, for every solver environment, elapsed-time
sequence and set of contacts/constraints. -/
theorem static_body_frozen (env : Env) (fixedDt : ℚ) (es : List ℚ)
    (w : World) (i : ℕ) (b : Body)
    (hb : w.bodies[i]? = some b) (h : b.mass = 0) :
    (runSteps env fixedDt es w).bodies[i]? = some b := by
  induction es generalizing w with
  | nil => simpa [runSteps] using hb
  | cons e es ih =>
    have h1 : runSteps env fixedDt (e :: es) w
        = runSteps env fixedDt es (worldStep env fixedDt e w) := rfl
    rw [h1]
    exact ih _ (worldStep_static env fixedDt e w i b hb h)

theorem static_body_frozen_witness :
    (runSteps env0 timeStep [1/30, 1/60] testState.world).bodies[1]? = some (newBody 0) :=
  static_body_frozen env0 timeStep [1/30, 1/60] testState.world 1 (newBody 0) rfl rfl

theorem substep_length (env : Env) (dt : ℚ) (w : World) :
    (substep env dt w).bodies.length = w.bodies.length :=
  length_mapIdxFrom _ 0 w.bodies

theorem iterate_substep_length (env : Env) (dt : ℚ) (k : ℕ) (w : World) :
    ((substep env dt)^[k] w).bodies.length = w.bodies.length := by
  induction k generalizing w with
  | zero => rfl
  | succ k ih =>
    rw [Function.iterate_succ_apply, ih]
    exact substep_length env dt w

theorem worldStep_length (env : Env) (fixedDt e : ℚ) (w : World) :
    (worldStep env fixedDt e w).bodies.length = w.bodies.length := by
  rw [worldStep_as]
  exact iterate_substep_length env fixedDt _ w

theorem ctrlUpdate_length (env : Env) (c : Controller) (w : World) :
    (controllerWorldUpdate env c w).bodies.length = w.bodies.length := by
  cases hc : c.enabled <;> simp [controllerWorldUpdate, hc, length_mapIdxFrom]

theorem syncPair_length (bodies : List Body) (idxs : List ℕ) (meshes : List Mesh) :
    (syncPair bodies idxs meshes).length = meshes.length :=
  length_mapIdxFrom _ 0 meshes

theorem getElem?_syncPair (bodies : List Body) (idxs : List ℕ)
    (meshes : List Mesh) (i : ℕ) :
    (syncPair bodies idxs meshes)[i]? = (meshes[i]?).map (fun m =>
      match idxs[i]? with
      | some j =>
        match bodies[j]? with
        | some b => ⟨b.position, b.quaternion⟩
        | none => m
      | none => m) := by
  show (mapIdxFrom _ 0 meshes)[i]? = _
  rw [getElem?_mapIdxFrom]
  simp

theorem ctrlUpdate_pose (env : Env) (c : Controller) (w : World) (j : ℕ) :
    ((controllerWorldUpdate env c w).bodies[j]?).map (fun b => (b.position, b.quaternion))
      = (w.bodies[j]?).map (fun b => (b.position, b.quaternion)) := by
  cases hc : c.enabled with
  | false => simp [controllerWorldUpdate, hc]
  | true =>
    simp only [controllerWorldUpdate, hc, if_true]
    show ((mapIdxFrom _ 0 w.bodies)[j]?).map _ = _
    rw [getElem?_mapIdxFrom]
    cases w.bodies[j]? with
    | none => rfl
    | some b =>
      simp only [Option.map_some']
      split <;> rfl

theorem animateFrame_enabled (env : Env) (t : ℚ) (s : MainState)
    (hc : s.ctrl.enabled = true) :
    animateFrame env t s =
      { s with
        lastCallTime := t
        world := controllerWorldUpdate env s.ctrl
          (worldStep env timeStep (t - s.lastCallTime) s.world)
        ballMeshes := syncPair (worldStep env timeStep (t - s.lastCallTime) s.world).bodies
          s.balls s.ballMeshes
        boxMeshes := syncPair (worldStep env timeStep (t - s.lastCallTime) s.world).bodies
          s.boxes s.boxMeshes } := by
  simp [animateFrame, hc]

theorem meshInv_initialState (gq : Quat) (rand : ℕ → ℚ) :
    meshInv (initialState gq rand) = true := by
  simp only [meshInv, initialState, Bool.and_eq_true, beq_iff_eq, List.all_eq_true,
    decide_eq_true_eq]
  refine ⟨⟨⟨rfl, rfl⟩, ?_⟩, ?_⟩
  · intro j hj
    simp at hj
  · intro j hj
    have hlen : (initCannonWorld gq rand).bodies.length = 112 := rfl
    rw [hlen]
    simp only [List.mem_append, List.mem_map, List.mem_range] at hj
    rcases hj with ⟨a, ha, rfl⟩ | ⟨a, ha, rfl⟩
    · omega
    · simp only [chainN] at ha
      simp only [chainBase]
      omega

theorem clickHandler_enabled (d : Vec3) (s : MainState)
    (hc : ¬ s.ctrl.enabled = false) :
    clickHandler d s =
      { s with
        world := { s.world with bodies := s.world.bodies ++
          [{ newBody 1 with
             shapes := [Shape.sphere ballRadius]
             velocity := shootVelocity • d
             position := (s.world.bodies.getD 0 (newBody 0)).position
               + (sphereRadius * (102/100) + ballRadius) • d }] }
        balls := s.balls ++ [s.world.bodies.length]
        ballMeshes := s.ballMeshes ++
          [⟨(s.world.bodies.getD 0 (newBody 0)).position
              + (sphereRadius * (102/100) + ballRadius) • d, Quat.identity⟩] } := by
  simp [clickHandler, hc]

theorem meshInv_clickHandler (d : Vec3) (s : MainState) (h : meshInv s = true) :
    meshInv (clickHandler d s) = true := by
  by_cases hc : s.ctrl.enabled = false
  · have heq : clickHandler d s = s := by simp [clickHandler, hc]
    rw [heq]
    exact h
  · simp only [meshInv, Bool.and_eq_true, beq_iff_eq, List.all_eq_true,
      decide_eq_true_eq] at h
    obtain ⟨⟨⟨h1, h2⟩, h3⟩, h4⟩ := h
    rw [clickHandler_enabled d s hc]
    simp only [meshInv, Bool.and_eq_true, beq_iff_eq, List.all_eq_true,
      decide_eq_true_eq]
    refine ⟨⟨⟨?_, ?_⟩, ?_⟩, ?_⟩
    · simp [h1]
    · simpa using h2
    · intro j hj
      simp only [List.mem_append, List.mem_singleton] at hj
      simp only [List.length_append, List.length_cons, List.length_nil]
      rcases hj with hj | rfl
      · have := h3 j hj
        omega
      · omega
    · intro j hj
      have := h4 j hj
      simp only [List.length_append, List.length_cons, List.length_nil]
      omega

theorem meshInv_animateFrame (env : Env) (t : ℚ) (s : MainState)
    (h : meshInv s = true) : meshInv (animateFrame env t s) = true := by
  by_cases hc : s.ctrl.enabled = true
  · rw [animateFrame_enabled env t s hc]
    simp only [meshInv, Bool.and_eq_true, beq_iff_eq, List.all_eq_true,
      decide_eq_true_eq] at h ⊢
    obtain ⟨⟨⟨h1, h2⟩, h3⟩, h4⟩ := h
    refine ⟨⟨⟨?_, ?_⟩, ?_⟩, ?_⟩
    · rw [syncPair_length]
      exact h1
    · rw [syncPair_length]
      exact h2
    · intro j hj
      rw [ctrlUpdate_length, worldStep_length]
      exact h3 j hj
    · intro j hj
      rw [ctrlUpdate_length, worldStep_length]
      exact h4 j hj
  · have hc' : s.ctrl.enabled = false := by
      revert hc
      cases s.ctrl.enabled <;> simp
    rw [animateFrame_disabled env t s hc']
    exact h

theorem synced_after_frame (env : Env) (t : ℚ) (s : MainState)
    (hc : s.ctrl.enabled = true) : Synced (animateFrame env t s) := by
  rw [animateFrame_enabled env t s hc]
  constructor <;>
  · intro i j m b h1 h2 h3
    dsimp only at h1 h2 h3
    have hp := ctrlUpdate_pose env s.ctrl
      (worldStep env timeStep (t - s.lastCallTime) s.world) j
    rw [h3] at hp
    cases hb2 : (worldStep env timeStep (t - s.lastCallTime) s.world).bodies[j]? with
    | none =>
      rw [hb2] at hp
      simp at hp
    | some b2 =>
      rw [hb2] at hp
      simp only [Option.map_some', Option.some.injEq, Prod.mk.injEq] at hp
      rw [getElem?_syncPair, Option.map_eq_some'] at h2
      obtain ⟨m0, hm0, hgm⟩ := h2
      rw [h1] at hgm
      dsimp only at hgm
      rw [hb2] at hgm
      dsimp only at hgm
      obtain rfl : m = ⟨b2.position, b2.quaternion⟩ := hgm.symm
      exact ⟨hp.1.symm, hp.2.symm⟩

/-- C8: the parallel body/proxy collections stay aligned — they hold at
setup, every projectile spawn appends the body and its proxy together,
every frame preserves them — and after the physics step of an enabled
frame each mesh i of both parallel arrays carries exactly the position
and orientation of the body it mirrors. -/
theorem scene_sync (gq : Quat) (rand : ℕ → ℚ) :
    meshInv (initialState gq rand) = true ∧
    (∀ (d : Vec3) (s : MainState), meshInv s = true →
      meshInv (clickHandler d s) = true) ∧
    (∀ (env : Env) (t : ℚ) (s : MainState), meshInv s = true →
      meshInv (animateFrame env t s) = true) ∧
    (∀ (env : Env) (t : ℚ) (s : MainState), s.ctrl.enabled = true →
      Synced (animateFrame env t s)) :=
  ⟨meshInv_initialState gq rand,
   fun d s h => meshInv_clickHandler d s h,
   fun env t s h => meshInv_animateFrame env t s h,
   fun env t s hc => synced_after_frame env t s hc⟩

theorem scene_sync_witness :
    meshInv (clickHandler ⟨0, 0, 1⟩ testStateOn) = true :=
  (scene_sync Quat.identity (fun _ => 0)).2.1 ⟨0, 0, 1⟩ testStateOn (by decide)
